import Mathlib

/-!
Verification of the LBANN mini-batch index-scheduling and gradient-checking
core, embedded shallowly from:
  - src/src/callbacks/check_gradients.cpp
  - src/include/lbann/data_readers/data_reader.hpp

Scalars of type DataType are embedded as elements of a linear ordered field
(instantiated at ℝ where the code calls std::sqrt and std::pow, and at ℚ for
concrete evaluation).  Distributed weight matrices are embedded as lists of
entry lists in scan order; objective evaluation is an explicit function of all
weight values.
-/

namespace LBANN

/-- Execution modes of a model (training / validation / testing). -/
inductive ExecutionMode where
  | training
  | validation
  | testing
deriving DecidableEq

/-- Configuration of the check_gradients callback: constructor arguments of
`check_gradients` (check_gradients.cpp lines 68-75).  The std::set of modes is
embedded as a duplicate-free-by-use list. -/
structure CheckGradientsConfig where
  modes : List ExecutionMode
  step_size : ℝ
  verbose : Bool
  error_on_failure : Bool

section Scan

variable {α : Type*} [LinearOrderedField α]

/-- Read entry `i` of weight matrix `j` (El GetLocal at the entry visited by
the row/col loops, flattened into scan order). -/
def getW (W : List (List α)) (j i : ℕ) : α := (W.getD j []).getD i 0

/-- `weights::set_value` on entry `i` of matrix `j`. -/
def setW (W : List (List α)) (j i : ℕ) (v : α) : List (List α) :=
  W.set j ((W.getD j []).set i v)

/-- One observable event of the gradient-check session: a `set_value` call or
a `compute_objective_function` result. -/
inductive GCEvent (α : Type*) where
  | setValue (v : α)
  | objectiveValue (v : α)
deriving DecidableEq

/-- Result of perturbing one weight entry: the final weight values, the event
trace, and the numerical gradient. -/
structure PerturbResult (α : Type*) where
  weights : List (List α)
  trace : List (GCEvent α)
  numerical : α
deriving DecidableEq

/-- Perturbation of entry `i` of weight matrix `j`
(check_gradients.cpp lines 163-187): read the initial weight, set the entry
in sequence to w0+2h, w0+h, w0-h, w0-2h, recomputing the objective function
after each of the four perturbations, restore w0, and form the 5-point
central-difference quotient. -/
def perturbEntry (obj : List (List α) → α) (h : α) (W : List (List α))
    (j i : ℕ) : PerturbResult α :=
  let w0 := getW W j i
  let W1 := setW W j i (w0 + 2 * h)
  let f_2h := obj W1
  let W2 := setW W1 j i (w0 + h)
  let f_h := obj W2
  let W3 := setW W2 j i (w0 - h)
  let f_nh := obj W3
  let W4 := setW W3 j i (w0 - 2 * h)
  let f_n2h := obj W4
  let W5 := setW W4 j i w0
  { weights := W5
    trace := [GCEvent.setValue (w0 + 2 * h), GCEvent.objectiveValue f_2h,
              GCEvent.setValue (w0 + h), GCEvent.objectiveValue f_h,
              GCEvent.setValue (w0 - h), GCEvent.objectiveValue f_nh,
              GCEvent.setValue (w0 - 2 * h), GCEvent.objectiveValue f_n2h,
              GCEvent.setValue w0]
    numerical := (- f_2h + 8 * f_h - 8 * f_nh + f_n2h) / (12 * h) }

/-- Embedding of std::isnan: a value of an ordered field is never NaN; the
flag is kept so the failure condition keeps the shape of the source. -/
def isNaNScalar (_x : α) : Bool := false

/-- Embedding of std::isinf: a value of an ordered field is never infinite. -/
def isInfScalar (_x : α) : Bool := false

/-- Failure condition for one checked entry
(check_gradients.cpp line 196): error > expected_error, or the error is
NaN, or the error is infinite. -/
def entryFails (expected error : α) (nanFlag infFlag : Bool) : Bool :=
  decide (expected < error) || nanFlag || infFlag

/-- `error = |analytical - numerical|` (check_gradients.cpp line 188). -/
def gradientError (analytical numerical : α) : α := |analytical - numerical|

/-- Relative error of one entry (check_gradients.cpp lines 189-193):
zero when the absolute error is exactly zero, otherwise
error / max(|analytical|, |numerical|). -/
def relativeError (analytical numerical : α) : α :=
  let error := gradientError analytical numerical
  if error ≠ 0 then error / max |analytical| |numerical| else 0

/-- Static data of one weights object: whether an optimizer is attached,
the analytical gradient per entry (GetLocal on the optimizer's gradient
matrix), and per-entry ownership (IsLocal together with RedundantRank() == 0,
check_gradients.cpp line 183). -/
structure WeightsInfo (α : Type*) where
  hasOptimizer : Bool
  analytical : ℕ → α
  owner : ℕ → Bool

/-- Result of the entry scan: the final weight values, the entries perturbed
in order, the entries reported as gradient failures, and whether a fatal
LBANN_ERROR was raised. -/
structure ScanResult (α : Type*) where
  weights : List (List α)
  processed : List (ℕ × ℕ)
  failures : List (ℕ × ℕ)
  aborted : Bool
deriving DecidableEq

/-- The inner loops of `do_check_gradients` over the entries of weight matrix
`j` (check_gradients.cpp lines 154-219): each entry is perturbed by
`perturbEntry`; only the owning rank compares against the analytical gradient;
a failing entry is reported, and raises a fatal error immediately when
`error_on_failure` is set. -/
def scanEntries (eof : Bool) (expected h : α) (obj : List (List α) → α)
    (analytical : ℕ → α) (owner : ℕ → Bool) (j : ℕ) :
    List (List α) → List ℕ → ScanResult α
  | W, [] => ⟨W, [], [], false⟩
  | W, i :: rest =>
    let p := perturbEntry obj h W j i
    if owner i then
      let error := gradientError (analytical i) p.numerical
      if entryFails expected error (isNaNScalar error) (isInfScalar error) then
        if eof then
          ⟨p.weights, [(j, i)], [(j, i)], true⟩
        else
          let r := scanEntries eof expected h obj analytical owner j p.weights rest
          ⟨r.weights, (j, i) :: r.processed, (j, i) :: r.failures, r.aborted⟩
      else
        let r := scanEntries eof expected h obj analytical owner j p.weights rest
        ⟨r.weights, (j, i) :: r.processed, r.failures, r.aborted⟩
    else
      let r := scanEntries eof expected h obj analytical owner j p.weights rest
      ⟨r.weights, (j, i) :: r.processed, r.failures, r.aborted⟩

/-- The outer loop of `do_check_gradients` over the model's weights objects
(check_gradients.cpp lines 141-222): weights without an optimizer are
skipped; a fatal error inside a matrix propagates out, skipping the
remaining matrices. -/
def scanWeights (eof : Bool) (expected h : α) (obj : List (List α) → α) :
    List (List α) → List (ℕ × WeightsInfo α) → ScanResult α
  | W, [] => ⟨W, [], [], false⟩
  | W, (j, info) :: rest =>
    if info.hasOptimizer then
      let r := scanEntries eof expected h obj info.analytical info.owner j W
        (List.range (W.getD j []).length)
      if r.aborted then r
      else
        let r2 := scanWeights eof expected h obj r.weights rest
        ⟨r2.weights, r.processed ++ r2.processed, r.failures ++ r2.failures,
         r2.aborted⟩
    else scanWeights eof expected h obj W rest

/-- Setting a list entry to the value it already holds is the identity. -/
theorem set_getD_self {β : Type*} (l : List β) (i : ℕ) (d : β) :
    l.set i (l.getD i d) = l := by
  induction l generalizing i with
  | nil => simp
  | cons a l ih =>
    cases i with
    | zero => simp
    | succ n =>
      show a :: l.set n (l.getD n d) = a :: l
      rw [ih n]

/-- Reading back an entry just set, at an in-bounds index. -/
theorem getD_set_self {β : Type*} (l : List β) (i : ℕ) (v d : β)
    (h : i < l.length) : (l.set i v).getD i d = v := by
  rw [List.getD_eq_getElem?_getD, List.getElem?_set_self h]
  rfl

/-- Two successive `set_value` calls on the same entry collapse to the
second one. -/
theorem setW_setW (W : List (List α)) (j i : ℕ) (a b : α) :
    setW (setW W j i a) j i b = setW W j i b := by
  unfold setW
  rcases lt_or_le j W.length with hj | hj
  · rw [getD_set_self _ _ _ _ hj, List.set_set, List.set_set]
  · rw [List.set_eq_of_length_le hj, List.set_eq_of_length_le hj]

/-- Setting an entry back to its current value restores the weight values. -/
theorem setW_getW (W : List (List α)) (j i : ℕ) :
    setW W j i (getW W j i) = W := by
  unfold setW getW
  rw [set_getD_self, set_getD_self]

/-- The perturbation of an entry leaves the weight values as it found
them. -/
theorem perturbEntry_weights (obj : List (List α) → α) (h : α)
    (W : List (List α)) (j i : ℕ) : (perturbEntry obj h W j i).weights = W := by
  simp only [perturbEntry]
  rw [setW_setW, setW_setW, setW_setW, setW_setW, setW_getW]

/-- The numerical gradient returned by the perturbation is the 5-point
central-difference quotient of the objective seen as a function of the
entry. -/
theorem perturbEntry_numerical (obj : List (List α) → α) (h : α)
    (W : List (List α)) (j i : ℕ) :
    (perturbEntry obj h W j i).numerical =
      (- obj (setW W j i (getW W j i + 2 * h))
       + 8 * obj (setW W j i (getW W j i + h))
       - 8 * obj (setW W j i (getW W j i - h))
       + obj (setW W j i (getW W j i - 2 * h))) / (12 * h) := by
  simp only [perturbEntry]
  rw [setW_setW, setW_setW, setW_setW]

/-- The event trace of the perturbation: the four perturbed values are set
in order, the objective is recomputed after each, and the initial value is
set back last. -/
theorem perturbEntry_trace (obj : List (List α) → α) (h : α)
    (W : List (List α)) (j i : ℕ) :
    (perturbEntry obj h W j i).trace =
      [GCEvent.setValue (getW W j i + 2 * h),
       GCEvent.objectiveValue (obj (setW W j i (getW W j i + 2 * h))),
       GCEvent.setValue (getW W j i + h),
       GCEvent.objectiveValue (obj (setW W j i (getW W j i + h))),
       GCEvent.setValue (getW W j i - h),
       GCEvent.objectiveValue (obj (setW W j i (getW W j i - h))),
       GCEvent.setValue (getW W j i - 2 * h),
       GCEvent.objectiveValue (obj (setW W j i (getW W j i - 2 * h))),
       GCEvent.setValue (getW W j i)] := by
  simp only [perturbEntry]
  rw [setW_setW, setW_setW, setW_setW]

/-- The entry scan restores the weight values on every path, aborting
included. -/
theorem scanEntries_weights (eof : Bool) (expected h : α)
    (obj : List (List α) → α) (analytical : ℕ → α) (owner : ℕ → Bool) (j : ℕ)
    (W : List (List α)) (is : List ℕ) :
    (scanEntries eof expected h obj analytical owner j W is).weights = W := by
  induction is generalizing W with
  | nil => rfl
  | cons i rest ih =>
    simp only [scanEntries]
    split
    · split
      · split
        · simp [perturbEntry_weights]
        · simp [ih, perturbEntry_weights]
      · simp [ih, perturbEntry_weights]
    · simp [ih, perturbEntry_weights]

/-- The weights scan restores the weight values on every path, aborting
included. -/
theorem scanWeights_weights (eof : Bool) (expected h : α)
    (obj : List (List α) → α) (W : List (List α))
    (ML : List (ℕ × WeightsInfo α)) :
    (scanWeights eof expected h obj W ML).weights = W := by
  induction ML generalizing W with
  | nil => rfl
  | cons ji rest ih =>
    obtain ⟨j, info⟩ := ji
    simp only [scanWeights]
    split
    · split
      · exact scanEntries_weights eof expected h obj info.analytical info.owner
          j W (List.range (W.getD j []).length)
      · simp [ih, scanEntries_weights]
    · exact ih W

/-- The condition under which the scan reports entry `i` of matrix `j` as a
gradient failure: the rank owns the entry and the failure condition of
check_gradients.cpp line 196 holds for its error. -/
def entryBad (expected h : α) (obj : List (List α) → α) (analytical : ℕ → α)
    (owner : ℕ → Bool) (W : List (List α)) (j i : ℕ) : Bool :=
  owner i &&
    (let error := gradientError (analytical i) (perturbEntry obj h W j i).numerical
     entryFails expected error (isNaNScalar error) (isInfScalar error))

/-- With `error_on_failure` unset the scan visits every entry, collects
exactly the failing owned entries, and never aborts. -/
theorem scanEntries_false (expected h : α) (obj : List (List α) → α)
    (analytical : ℕ → α) (owner : ℕ → Bool) (j : ℕ) (W : List (List α))
    (is : List ℕ) :
    scanEntries false expected h obj analytical owner j W is =
      ⟨W, is.map (fun i => (j, i)),
       (is.filter (entryBad expected h obj analytical owner W j)).map
         (fun i => (j, i)), false⟩ := by
  induction is generalizing W with
  | nil => rfl
  | cons i rest ih =>
    simp only [scanEntries, perturbEntry_weights]
    rw [ih]
    by_cases howner : owner i = true
    · by_cases hfail :
        entryFails expected
          (gradientError (analytical i) (perturbEntry obj h W j i).numerical)
          (isNaNScalar
            (gradientError (analytical i) (perturbEntry obj h W j i).numerical))
          (isInfScalar
            (gradientError (analytical i) (perturbEntry obj h W j i).numerical))
          = true
      · simp [howner, hfail, entryBad]
      · simp [howner, hfail, entryBad]
    · simp [howner, entryBad]

/-- With `error_on_failure` set the scan stops at the first failing owned
entry: it perturbs only the entries up to and including it, reports exactly
that entry, and aborts; when no owned entry fails it behaves as the
non-fatal scan. -/
theorem scanEntries_true (expected h : α) (obj : List (List α) → α)
    (analytical : ℕ → α) (owner : ℕ → Bool) (j : ℕ) (W : List (List α))
    (is : List ℕ) :
    scanEntries true expected h obj analytical owner j W is =
      match is.dropWhile
          (fun i => !entryBad expected h obj analytical owner W j i) with
      | [] => ⟨W, is.map (fun i => (j, i)), [], false⟩
      | i0 :: _ =>
        ⟨W, ((is.takeWhile
              (fun i => !entryBad expected h obj analytical owner W j i))
             ++ [i0]).map (fun i => (j, i)), [(j, i0)], true⟩ := by
  induction is generalizing W with
  | nil => rfl
  | cons i rest ih =>
    by_cases hbad : entryBad expected h obj analytical owner W j i = true
    · have hdrop : (i :: rest).dropWhile
          (fun i => !entryBad expected h obj analytical owner W j i) = i :: rest := by
        simp [List.dropWhile_cons, hbad]
      have htake : (i :: rest).takeWhile
          (fun i => !entryBad expected h obj analytical owner W j i) = [] := by
        simp [List.takeWhile_cons, hbad]
      have hb : owner i = true ∧
          entryFails expected
            (gradientError (analytical i) (perturbEntry obj h W j i).numerical)
            (isNaNScalar
              (gradientError (analytical i) (perturbEntry obj h W j i).numerical))
            (isInfScalar
              (gradientError (analytical i) (perturbEntry obj h W j i).numerical))
            = true := by
        simpa [entryBad] using hbad
      rw [hdrop]
      simp only [htake]
      simp [scanEntries, hb.1, hb.2, perturbEntry_weights]
    · have hdrop : (i :: rest).dropWhile
          (fun i => !entryBad expected h obj analytical owner W j i) =
          rest.dropWhile
            (fun i => !entryBad expected h obj analytical owner W j i) := by
        simp [List.dropWhile_cons, hbad]
      have htake : (i :: rest).takeWhile
          (fun i => !entryBad expected h obj analytical owner W j i) =
          i :: rest.takeWhile
            (fun i => !entryBad expected h obj analytical owner W j i) := by
        simp [List.takeWhile_cons, hbad]
      rw [hdrop, htake]
      cases howner : owner i with
      | false =>
        have hscan : scanEntries true expected h obj analytical owner j W (i :: rest) =
            let r := scanEntries true expected h obj analytical owner j W rest
            ⟨r.weights, (j, i) :: r.processed, r.failures, r.aborted⟩ := by
          simp [scanEntries, howner, perturbEntry_weights]
        rw [hscan, ih]
        cases hdw : rest.dropWhile
            (fun i => !entryBad expected h obj analytical owner W j i) with
        | nil => simp
        | cons i0 t => simp
      | true =>
        have hfail :
            entryFails expected
              (gradientError (analytical i) (perturbEntry obj h W j i).numerical)
              (isNaNScalar (gradientError (analytical i)
                (perturbEntry obj h W j i).numerical))
              (isInfScalar (gradientError (analytical i)
                (perturbEntry obj h W j i).numerical)) = false := by
          cases hf : entryFails expected
              (gradientError (analytical i) (perturbEntry obj h W j i).numerical)
              (isNaNScalar (gradientError (analytical i)
                (perturbEntry obj h W j i).numerical))
              (isInfScalar (gradientError (analytical i)
                (perturbEntry obj h W j i).numerical)) with
          | false => rfl
          | true => exact absurd (by simp [entryBad, howner, hf]) hbad
        have hscan : scanEntries true expected h obj analytical owner j W (i :: rest) =
            let r := scanEntries true expected h obj analytical owner j W rest
            ⟨r.weights, (j, i) :: r.processed, r.failures, r.aborted⟩ := by
          simp [scanEntries, howner, hfail, perturbEntry_weights]
        rw [hscan, ih]
        cases hdw : rest.dropWhile
            (fun i => !entryBad expected h obj analytical owner W j i) with
        | nil => simp
        | cons i0 t => simp

/-- With `error_on_failure` unset the weights loop visits exactly the
entries of the matrices that have an optimizer attached, in order, restores
the weights, and never aborts. -/
theorem scanWeights_false (expected h : α) (obj : List (List α) → α)
    (W : List (List α)) (ML : List (ℕ × WeightsInfo α)) :
    scanWeights false expected h obj W ML =
      ⟨W,
       ML.flatMap (fun ji =>
         if ji.2.hasOptimizer then
           (List.range (W.getD ji.1 []).length).map (fun i => (ji.1, i))
         else []),
       ML.flatMap (fun ji =>
         if ji.2.hasOptimizer then
           ((List.range (W.getD ji.1 []).length).filter
             (entryBad expected h obj ji.2.analytical ji.2.owner W ji.1)).map
             (fun i => (ji.1, i))
         else []),
       false⟩ := by
  induction ML with
  | nil => rfl
  | cons ji rest ih =>
    obtain ⟨j, info⟩ := ji
    cases hopt : info.hasOptimizer with
    | false => simp [scanWeights, hopt, ih]
    | true =>
      simp [scanWeights, hopt, scanEntries_false, ih]

end Scan

/-! Finite-difference step and expected-error formulas of
`do_check_gradients` (check_gradients.cpp lines 107-123), over ℝ. -/

/-- The `epsilon` local of do_check_gradients (line 117):
std::pow(machine epsilon, 0.9). -/
noncomputable def epsilonVal (machineEps : ℝ) : ℝ := machineEps ^ (0.9 : ℝ)

/-- The `step_size` local of do_check_gradients (lines 118-120): the
configured step size when positive, otherwise |objective| * sqrt(epsilon). -/
noncomputable def stepSizeVal (cfgStep machineEps objective : ℝ) : ℝ :=
  if 0 < cfgStep then cfgStep
  else |objective| * Real.sqrt (epsilonVal machineEps)

/-- The `expected_error` local of do_check_gradients (lines 121-123):
std::pow(epsilon * objective / step_size + std::pow(step_size, 4) / 18, 0.9). -/
noncomputable def expectedErrorVal (machineEps objective stepSize : ℝ) : ℝ :=
  (epsilonVal machineEps * objective / stepSize + stepSize ^ 4 / 18) ^ (0.9 : ℝ)

/-- The expected-error bound as the specification words it:
((eps * f0 / h) + h^4/18)^0.9 with `eps` the machine epsilon itself. -/
noncomputable def expectedErrorClaimed (machineEps objective stepSize : ℝ) : ℝ :=
  (machineEps * objective / stepSize + stepSize ^ 4 / 18) ^ (0.9 : ℝ)

/-- Model state touched by do_check_gradients: weight values, objective and
metric statistics, and the data-reader cursors of the input layers. -/
structure ModelState where
  weightValues : List (List ℝ)
  objectiveStats : ℤ
  metricStats : List ℤ
  readerPositions : List ℤ

/-- Data printed and produced by one gradient-check run: the chosen step
size, the expected-error bound, and the scan result. -/
structure GCRun where
  stepSize : ℝ
  expectedError : ℝ
  scan : ScanResult ℝ

/-- `check_gradients::do_check_gradients` (check_gradients.cpp lines 77-241):
return immediately when the current execution mode is excluded; otherwise
reset statistics, compute the baseline objective, choose the step size and
the expected-error bound, scan all weights with attached optimizers, and on
the non-fatal path reset statistics again and restore the input data
readers to their initial positions.  A fatal LBANN_ERROR is modelled by the
aborted scan result, which skips the cleanup. -/
noncomputable def do_check_gradients (cfg : CheckGradientsConfig)
    (machineEps : ℝ) (obj : List (List ℝ) → ℝ) (infos : List (WeightsInfo ℝ))
    (initPositions : List ℤ) (mode : ExecutionMode) (st : ModelState) :
    ModelState × Option GCRun :=
  if !cfg.modes.isEmpty && !(cfg.modes.contains mode) then (st, none)
  else
    let st1 : ModelState :=
      { st with objectiveStats := 0,
                metricStats := st.metricStats.map fun _ => 0 }
    let objective := obj st1.weightValues
    let h := stepSizeVal cfg.step_size machineEps objective
    let expected := expectedErrorVal machineEps objective h
    let r := scanWeights cfg.error_on_failure expected h obj st1.weightValues
      ((List.range infos.length).zip infos)
    if r.aborted then
      ({ st1 with weightValues := r.weights }, some ⟨h, expected, r⟩)
    else
      ({ st1 with weightValues := r.weights,
                  objectiveStats := 0,
                  metricStats := st1.metricStats.map fun _ => 0,
                  readerPositions := initPositions }, some ⟨h, expected, r⟩)

/-! Generic data reader (src/include/lbann/data_readers/data_reader.hpp). -/

/-- State of a `generic_data_reader`: the mini-batch cursor fields, the
index partition, and the shuffle flag (data_reader.hpp lines 370-398; the
shuffle flag is the constructor argument of line 58). -/
structure DataReaderState where
  batch_size : ℤ
  current_pos : ℤ
  batch_stride : ℤ
  base_offset : ℤ
  model_offset : ℤ
  sample_stride : ℤ
  last_mini_batch_threshold : ℤ
  last_mini_batch_size : ℤ
  last_mini_batch_stride : ℤ
  current_mini_batch_idx : ℤ
  num_mini_batches_per_reader : ℤ
  num_iterations_per_epoch : ℤ
  shuffled_indices : List ℤ
  unused_indices : List ℤ
  shuffle : Bool
deriving DecidableEq

/-- `generic_data_reader::position_valid` (data_reader.hpp lines 254-256):
m_current_pos < (int)m_shuffled_indices.size(). -/
def position_valid (s : DataReaderState) : Bool :=
  decide (s.current_pos < (s.shuffled_indices.length : ℤ))

/-- `generic_data_reader::at_new_epoch` (data_reader.hpp lines 257-259):
m_current_mini_batch_idx == 0. -/
def at_new_epoch (s : DataReaderState) : Bool :=
  decide (s.current_mini_batch_idx = 0)

/-- Modelled from the spec: `generic_data_reader::update` is declared at
data_reader.hpp line 232 but its definition (data_reader.cpp) is not in the
sources, so the transition follows the specification: advance `current_pos`
by `batch_stride`, or by `last_mini_batch_stride` once `current_pos` has
passed `last_mini_batch_threshold`; when the resulting position reaches
`|shuffled_indices|` the epoch ends, `current_mini_batch_idx` resets to 0
and the indices are reshuffled if shuffling is configured; the return value
is true exactly on an epoch boundary.  The reshuffle permutation is an
explicit argument. -/
def update (reshuffle : List ℤ → List ℤ) (s : DataReaderState) :
    Bool × DataReaderState :=
  let stride := if s.last_mini_batch_threshold ≤ s.current_pos
    then s.last_mini_batch_stride else s.batch_stride
  let newPos := s.current_pos + stride
  if (s.shuffled_indices.length : ℤ) ≤ newPos then
    (true,
     { s with current_pos := s.base_offset + s.model_offset,
              current_mini_batch_idx := 0,
              shuffled_indices :=
                if s.shuffle then reshuffle s.shuffled_indices
                else s.shuffled_indices })
  else
    (false,
     { s with current_pos := newPos,
              current_mini_batch_idx := s.current_mini_batch_idx + 1 })

/-- Modelled from the spec: `saveToCheckpointShared` is declared at
data_reader.hpp line 360 but defined outside the sources; per the
specification it serializes `shuffled_indices`, `unused_indices` and the
mini-batch cursor fields as an opaque blob, here a flat list of integers
with the two index sequences length-prefixed. -/
def saveToCheckpointShared (s : DataReaderState) : List ℤ :=
  [s.current_pos, s.batch_stride, s.base_offset, s.model_offset,
   s.sample_stride, s.last_mini_batch_threshold, s.last_mini_batch_size,
   s.last_mini_batch_stride, s.current_mini_batch_idx,
   s.num_mini_batches_per_reader, s.num_iterations_per_epoch,
   (s.shuffled_indices.length : ℤ)]
  ++ s.shuffled_indices
  ++ (s.unused_indices.length : ℤ) :: s.unused_indices

/-- Modelled from the spec: `loadFromCheckpointShared` (declared at
data_reader.hpp line 363, defined outside the sources) reads the blob back
into a reader instance, reproducing the index sequences and cursor fields
exactly; malformed or truncated blobs fail (CorruptStateError), returning
none. -/
def loadFromCheckpointShared (blob : List ℤ) (s : DataReaderState) :
    Option DataReaderState :=
  match blob with
  | pos :: bstr :: boff :: moff :: sstr :: lthr :: lsz :: lstr :: idx ::
    nmb :: nit :: nShuf :: rest =>
    if 0 ≤ nShuf ∧ nShuf.toNat ≤ rest.length then
      let shuf := rest.take nShuf.toNat
      match rest.drop nShuf.toNat with
      | nUnused :: rest2 =>
        if 0 ≤ nUnused ∧ nUnused.toNat = rest2.length then
          some { s with
            current_pos := pos, batch_stride := bstr, base_offset := boff,
            model_offset := moff, sample_stride := sstr,
            last_mini_batch_threshold := lthr, last_mini_batch_size := lsz,
            last_mini_batch_stride := lstr, current_mini_batch_idx := idx,
            num_mini_batches_per_reader := nmb,
            num_iterations_per_epoch := nit,
            shuffled_indices := shuf, unused_indices := rest2 }
        else none
      | [] => none
    else none
  | _ => none

/-! Claim theorems. -/

/-- C9: `position_valid()` returns true iff
`current_pos < |shuffled_indices|`, and `at_new_epoch()` returns true iff
`current_mini_batch_idx == 0`. -/
theorem claim9_cursor_predicates (s : DataReaderState) :
    (position_valid s = true ↔
      s.current_pos < (s.shuffled_indices.length : ℤ)) ∧
    (at_new_epoch s = true ↔ s.current_mini_batch_idx = 0) := by
  constructor <;> simp [position_valid, at_new_epoch]

/-- C7: saving a checkpoint and loading it into a fresh instance reproduces
`shuffled_indices`, `unused_indices`, and all cursor fields exactly. -/
theorem claim7_checkpoint_roundtrip (s fresh : DataReaderState) :
    loadFromCheckpointShared (saveToCheckpointShared s) fresh =
      some { fresh with
        current_pos := s.current_pos, batch_stride := s.batch_stride,
        base_offset := s.base_offset, model_offset := s.model_offset,
        sample_stride := s.sample_stride,
        last_mini_batch_threshold := s.last_mini_batch_threshold,
        last_mini_batch_size := s.last_mini_batch_size,
        last_mini_batch_stride := s.last_mini_batch_stride,
        current_mini_batch_idx := s.current_mini_batch_idx,
        num_mini_batches_per_reader := s.num_mini_batches_per_reader,
        num_iterations_per_epoch := s.num_iterations_per_epoch,
        shuffled_indices := s.shuffled_indices,
        unused_indices := s.unused_indices } := by
  have htake : (s.shuffled_indices ++
      (s.unused_indices.length : ℤ) :: s.unused_indices).take
        ((s.shuffled_indices.length : ℤ)).toNat = s.shuffled_indices := by
    rw [Int.toNat_natCast, List.take_left]
  have hdrop : (s.shuffled_indices ++
      (s.unused_indices.length : ℤ) :: s.unused_indices).drop
        ((s.shuffled_indices.length : ℤ)).toNat =
      (s.unused_indices.length : ℤ) :: s.unused_indices := by
    rw [Int.toNat_natCast, List.drop_left]
  simp only [saveToCheckpointShared, loadFromCheckpointShared,
    List.cons_append, List.nil_append, htake, hdrop]
  rw [if_pos, if_pos]
  · exact ⟨Int.natCast_nonneg _, by rw [Int.toNat_natCast]⟩
  · refine ⟨Int.natCast_nonneg _, ?_⟩
    rw [Int.toNat_natCast]
    simp

/-- C2: `update()` advances `current_pos` by `batch_stride`, or by
`last_mini_batch_stride` once `current_pos` has passed
`last_mini_batch_threshold`; when the resulting position reaches
`|shuffled_indices|` the epoch is complete, `current_mini_batch_idx` resets
to 0 and (when shuffling is configured) the indices are reshuffled; the
return value is true iff this update caused an epoch boundary. -/
theorem claim2_update (reshuffle : List ℤ → List ℤ) (s : DataReaderState) :
    ((update reshuffle s).1 = true ↔
      (s.shuffled_indices.length : ℤ) ≤ s.current_pos +
        (if s.last_mini_batch_threshold ≤ s.current_pos
         then s.last_mini_batch_stride else s.batch_stride)) ∧
    ((update reshuffle s).1 = false →
      (update reshuffle s).2.current_pos = s.current_pos +
        (if s.last_mini_batch_threshold ≤ s.current_pos
         then s.last_mini_batch_stride else s.batch_stride)) ∧
    ((update reshuffle s).1 = true →
      (update reshuffle s).2.current_mini_batch_idx = 0 ∧
      (update reshuffle s).2.shuffled_indices =
        (if s.shuffle then reshuffle s.shuffled_indices
         else s.shuffled_indices)) := by
  by_cases hend : (s.shuffled_indices.length : ℤ) ≤ s.current_pos +
      (if s.last_mini_batch_threshold ≤ s.current_pos
       then s.last_mini_batch_stride else s.batch_stride)
  · simp [update, hend]
  · simp [update, hend]

/-- Witness for C2 at a concrete reader state: a mid-epoch update advances
by the normal batch stride and reports no boundary; an update past the
threshold advances by the last-mini-batch stride; an update that wraps
resets the mini-batch index and reshuffles. -/
theorem claim2_update_witness :
    ((update (fun l => l.reverse)
        { batch_size := 10, current_pos := 0, batch_stride := 10,
          base_offset := 0, model_offset := 0, sample_stride := 1,
          last_mini_batch_threshold := 100, last_mini_batch_size := 5,
          last_mini_batch_stride := 5, current_mini_batch_idx := 3,
          num_mini_batches_per_reader := 11, num_iterations_per_epoch := 11,
          shuffled_indices := List.range' 0 105 |>.map Int.ofNat,
          unused_indices := [], shuffle := true }).2.current_pos = 10) ∧
    ((update (fun l => l.reverse)
        { batch_size := 10, current_pos := 100, batch_stride := 10,
          base_offset := 0, model_offset := 0, sample_stride := 1,
          last_mini_batch_threshold := 100, last_mini_batch_size := 5,
          last_mini_batch_stride := 5, current_mini_batch_idx := 10,
          num_mini_batches_per_reader := 11, num_iterations_per_epoch := 11,
          shuffled_indices := [0, 1, 2], unused_indices := [],
          shuffle := true }).1 = true) ∧
    ((update (fun l => l.reverse)
        { batch_size := 10, current_pos := 100, batch_stride := 10,
          base_offset := 0, model_offset := 0, sample_stride := 1,
          last_mini_batch_threshold := 100, last_mini_batch_size := 5,
          last_mini_batch_stride := 5, current_mini_batch_idx := 10,
          num_mini_batches_per_reader := 11, num_iterations_per_epoch := 11,
          shuffled_indices := [0, 1, 2], unused_indices := [],
          shuffle := true }).2.current_mini_batch_idx = 0 ∧
     (update (fun l => l.reverse)
        { batch_size := 10, current_pos := 100, batch_stride := 10,
          base_offset := 0, model_offset := 0, sample_stride := 1,
          last_mini_batch_threshold := 100, last_mini_batch_size := 5,
          last_mini_batch_stride := 5, current_mini_batch_idx := 10,
          num_mini_batches_per_reader := 11, num_iterations_per_epoch := 11,
          shuffled_indices := [0, 1, 2], unused_indices := [],
          shuffle := true }).2.shuffled_indices = [2, 1, 0]) := by
  refine ⟨?_, ?_, ?_⟩
  · have h := (claim2_update (fun l => l.reverse)
      { batch_size := 10, current_pos := 0, batch_stride := 10,
        base_offset := 0, model_offset := 0, sample_stride := 1,
        last_mini_batch_threshold := 100, last_mini_batch_size := 5,
        last_mini_batch_stride := 5, current_mini_batch_idx := 3,
        num_mini_batches_per_reader := 11, num_iterations_per_epoch := 11,
        shuffled_indices := List.range' 0 105 |>.map Int.ofNat,
        unused_indices := [], shuffle := true }).2.1 (by decide)
    rw [h]
    decide
  · exact (claim2_update (fun l => l.reverse)
      { batch_size := 10, current_pos := 100, batch_stride := 10,
        base_offset := 0, model_offset := 0, sample_stride := 1,
        last_mini_batch_threshold := 100, last_mini_batch_size := 5,
        last_mini_batch_stride := 5, current_mini_batch_idx := 10,
        num_mini_batches_per_reader := 11, num_iterations_per_epoch := 11,
        shuffled_indices := [0, 1, 2], unused_indices := [],
        shuffle := true }).1.mpr (by decide)
  · have h := (claim2_update (fun l => l.reverse)
      { batch_size := 10, current_pos := 100, batch_stride := 10,
        base_offset := 0, model_offset := 0, sample_stride := 1,
        last_mini_batch_threshold := 100, last_mini_batch_size := 5,
        last_mini_batch_stride := 5, current_mini_batch_idx := 10,
        num_mini_batches_per_reader := 11, num_iterations_per_epoch := 11,
        shuffled_indices := [0, 1, 2], unused_indices := [],
        shuffle := true }).2.2 (by decide)
    exact ⟨h.1, by rw [h.2]; decide⟩

/-- C4: the finite-difference step equals the configured step size when
that is positive, and |f0| * sqrt(eps^0.9) otherwise, with eps the machine
epsilon. -/
theorem claim4_step_size (cfgStep machineEps f0 : ℝ) :
    (0 < cfgStep → stepSizeVal cfgStep machineEps f0 = cfgStep) ∧
    (¬ 0 < cfgStep →
      stepSizeVal cfgStep machineEps f0 =
        |f0| * Real.sqrt (machineEps ^ (0.9 : ℝ))) := by
  constructor <;> intro hstep <;> simp [stepSizeVal, epsilonVal, hstep]

/-- Witness for C4 at concrete values: a configured positive step is used
as-is, and a zero configuration derives the step from the objective. -/
theorem claim4_step_size_witness :
    stepSizeVal 2 (1/1024) 5 = 2 ∧
    stepSizeVal 0 (1/1024) 5 = |(5:ℝ)| * Real.sqrt ((1/1024 : ℝ) ^ (0.9 : ℝ)) :=
  ⟨(claim4_step_size 2 (1/1024) 5).1 two_pos,
   (claim4_step_size 0 (1/1024) 5).2 (lt_irrefl 0)⟩

/-- C8: the relative error is |analytical - numerical| divided by
max(|analytical|, |numerical|) except that it is zero when the difference
is exactly zero; whenever the quotient is formed the denominator is
nonzero. -/
theorem claim8_relative_error {α : Type*} [LinearOrderedField α] (a n : α) :
    (a - n ≠ 0 →
      relativeError a n = |a - n| / max |a| |n| ∧ max |a| |n| ≠ 0) ∧
    (a - n = 0 → relativeError a n = 0) := by
  constructor
  · intro hne
    have habs : |a - n| ≠ 0 := by simpa using hne
    refine ⟨by simp [relativeError, gradientError, habs], ?_⟩
    have hpos : 0 < max |a| |n| := by
      rcases eq_or_ne a 0 with ha | ha
      · have hn : n ≠ 0 := by
          intro h0
          exact hne (by rw [ha, h0, sub_zero])
        exact lt_of_lt_of_le (abs_pos.mpr hn) (le_max_right _ _)
      · exact lt_of_lt_of_le (abs_pos.mpr ha) (le_max_left _ _)
    exact ne_of_gt hpos
  · intro hz
    simp [relativeError, gradientError, hz]

/-- Witness for C8 at concrete rationals, covering both the nonzero
difference branch and the zero difference branch. -/
theorem claim8_relative_error_witness :
    (relativeError (3:ℚ) 1 = |(3:ℚ) - 1| / max |(3:ℚ)| |(1:ℚ)| ∧
      max |(3:ℚ)| |(1:ℚ)| ≠ 0) ∧
    relativeError (2:ℚ) 2 = 0 :=
  ⟨(claim8_relative_error (3:ℚ) 1).1 (by norm_num),
   (claim8_relative_error (2:ℚ) 2).2 (by norm_num)⟩

/-- The power (1/1024)^0.9 evaluates to 1/512, since 1/1024 = 2^(-10) and
(-10) * 0.9 = -9. -/
theorem rpow_kilo_nine_tenths : ((1/1024 : ℝ)) ^ (0.9 : ℝ) = 1/512 := by
  have h2 : (1/1024 : ℝ) = (2:ℝ) ^ (-10 : ℝ) := by
    rw [Real.rpow_neg (by norm_num : (0:ℝ) ≤ 2),
      show ((10:ℝ)) = ((10:ℕ):ℝ) by norm_num, Real.rpow_natCast]
    norm_num
  rw [h2, ← Real.rpow_mul (by norm_num : (0:ℝ) ≤ 2),
    show ((-10:ℝ) * (0.9:ℝ)) = (-(9:ℝ)) by norm_num,
    Real.rpow_neg (by norm_num : (0:ℝ) ≤ 2),
    show ((9:ℝ)) = ((9:ℕ):ℝ) by norm_num, Real.rpow_natCast]
  norm_num

/-- C3 counterexample: at machine epsilon 1/1024, baseline objective 1 and
step 1, the expected-error bound computed by the code differs from the
claimed formula ((eps * f0 / h) + h^4/18)^0.9, because the code multiplies
by eps^0.9 rather than by eps. -/
theorem claim3_counterexample :
    expectedErrorVal (1/1024) 1 1 ≠ expectedErrorClaimed (1/1024) 1 1 := by
  have hval : expectedErrorVal (1/1024) 1 1 = ((1/512 + 1/18 : ℝ)) ^ (0.9:ℝ) := by
    unfold expectedErrorVal epsilonVal
    rw [rpow_kilo_nine_tenths]
    norm_num
  have hcl : expectedErrorClaimed (1/1024) 1 1 =
      ((1/1024 + 1/18 : ℝ)) ^ (0.9:ℝ) := by
    unfold expectedErrorClaimed
    norm_num
  rw [hval, hcl]
  exact ne_of_gt (Real.rpow_lt_rpow (by norm_num) (by norm_num) (by norm_num))

/-- C3 amended: in do_check_gradients the expected-error bound is
((eps^0.9 * f0 / h) + h^4/18)^0.9 where f0 is the baseline objective, h the
chosen step and eps the machine epsilon (the code's `epsilon` variable is
machine epsilon raised to 0.9). -/
theorem claim3_expected_error (cfg : CheckGradientsConfig) (machineEps : ℝ)
    (obj : List (List ℝ) → ℝ) (infos : List (WeightsInfo ℝ))
    (initPositions : List ℤ) (mode : ExecutionMode) (st : ModelState)
    (henabled : cfg.modes = [] ∨ mode ∈ cfg.modes) :
    ∃ run : GCRun,
      (do_check_gradients cfg machineEps obj infos initPositions mode st).2
        = some run ∧
      run.stepSize = stepSizeVal cfg.step_size machineEps (obj st.weightValues) ∧
      run.expectedError =
        (machineEps ^ (0.9:ℝ) * obj st.weightValues / run.stepSize
          + run.stepSize ^ 4 / 18) ^ (0.9:ℝ) := by
  have hgate : (!cfg.modes.isEmpty && !(cfg.modes.contains mode)) = false := by
    rcases henabled with hnil | hmem
    · simp [hnil]
    · simp [hmem]
  unfold do_check_gradients
  rw [hgate]
  simp only [Bool.false_eq_true, if_false]
  split
  · exact ⟨_, rfl, rfl, rfl⟩
  · exact ⟨_, rfl, rfl, rfl⟩

/-- Witness for C3's amended statement: with an empty mode set the check
runs and its expected-error bound satisfies the amended formula. -/
theorem claim3_expected_error_witness :
    ∃ run : GCRun,
      (do_check_gradients ⟨[], 1, false, false⟩ (1/1024) (fun _ => 1) [] []
        ExecutionMode.training ⟨[[1]], 0, [], []⟩).2 = some run ∧
      run.stepSize = stepSizeVal 1 (1/1024) ((fun _ => (1:ℝ)) [[(1:ℝ)]]) ∧
      run.expectedError =
        ((1/1024 : ℝ) ^ (0.9:ℝ) * ((fun _ => (1:ℝ)) [[(1:ℝ)]]) / run.stepSize
          + run.stepSize ^ 4 / 18) ^ (0.9:ℝ) :=
  claim3_expected_error ⟨[], 1, false, false⟩ (1/1024) (fun _ => 1) [] []
    ExecutionMode.training ⟨[[1]], 0, [], []⟩ (Or.inl rfl)

/-- C1: for every weight matrix with an attached optimizer and every entry
of it, the check sets the entry in sequence to w0+2h, w0+h, w0-h, w0-2h,
recomputes the objective after each of the four perturbations, restores w0,
and computes the numerical gradient as
(-f(w0+2h) + 8 f(w0+h) - 8 f(w0-h) + f(w0-2h)) / (12h); the weights loop
visits exactly the entries of the optimizer-attached matrices. -/
theorem claim1_perturbation_sequence {α : Type*} [LinearOrderedField α]
    (obj : List (List α) → α) (h expected : α) (W : List (List α)) (j i : ℕ)
    (ML : List (ℕ × WeightsInfo α)) :
    ((perturbEntry obj h W j i).trace =
      [GCEvent.setValue (getW W j i + 2 * h),
       GCEvent.objectiveValue (obj (setW W j i (getW W j i + 2 * h))),
       GCEvent.setValue (getW W j i + h),
       GCEvent.objectiveValue (obj (setW W j i (getW W j i + h))),
       GCEvent.setValue (getW W j i - h),
       GCEvent.objectiveValue (obj (setW W j i (getW W j i - h))),
       GCEvent.setValue (getW W j i - 2 * h),
       GCEvent.objectiveValue (obj (setW W j i (getW W j i - 2 * h))),
       GCEvent.setValue (getW W j i)]) ∧
    ((perturbEntry obj h W j i).weights = W) ∧
    ((perturbEntry obj h W j i).numerical =
      (- obj (setW W j i (getW W j i + 2 * h))
       + 8 * obj (setW W j i (getW W j i + h))
       - 8 * obj (setW W j i (getW W j i - h))
       + obj (setW W j i (getW W j i - 2 * h))) / (12 * h)) ∧
    ((scanWeights false expected h obj W ML).processed =
      ML.flatMap (fun ji =>
        if ji.2.hasOptimizer then
          (List.range (W.getD ji.1 []).length).map (fun i2 => (ji.1, i2))
        else [])) :=
  ⟨perturbEntry_trace obj h W j i, perturbEntry_weights obj h W j i,
   perturbEntry_numerical obj h W j i, by rw [scanWeights_false]⟩

/-- C5: an owned entry is a gradient-check failure iff its error exceeds
the expected bound or is NaN or infinite; with `error_on_failure` set, the
scan raises a fatal error at the first failing entry, before the remaining
entries are perturbed; otherwise it reports every failing entry and
continues through all entries. -/
theorem claim5_failure_policy {α : Type*} [LinearOrderedField α]
    (expected h error : α) (nanFlag infFlag : Bool)
    (obj : List (List α) → α) (analytical : ℕ → α) (owner : ℕ → Bool)
    (j : ℕ) (W : List (List α)) (is : List ℕ) :
    (entryFails expected error nanFlag infFlag = true ↔
      (expected < error ∨ nanFlag = true ∨ infFlag = true)) ∧
    (scanEntries false expected h obj analytical owner j W is =
      ⟨W, is.map (fun i => (j, i)),
       (is.filter (entryBad expected h obj analytical owner W j)).map
         (fun i => (j, i)), false⟩) ∧
    (scanEntries true expected h obj analytical owner j W is =
      match is.dropWhile
          (fun i => !entryBad expected h obj analytical owner W j i) with
      | [] => ⟨W, is.map (fun i => (j, i)), [], false⟩
      | i0 :: _ =>
        ⟨W, ((is.takeWhile
              (fun i => !entryBad expected h obj analytical owner W j i))
             ++ [i0]).map (fun i => (j, i)), [(j, i0)], true⟩) :=
  ⟨by simp [entryFails, or_assoc],
   scanEntries_false expected h obj analytical owner j W is,
   scanEntries_true expected h obj analytical owner j W is⟩

/-- C6: every perturbed entry is restored before the next entry is
evaluated and before any fatal error is raised; the weight values after the
scan equal the initial ones on every exit path, the aborting one
included. -/
theorem claim6_no_persistent_mutation {α : Type*} [LinearOrderedField α]
    (obj : List (List α) → α) (h expected : α) (eof : Bool)
    (analytical : ℕ → α) (owner : ℕ → Bool) (j i : ℕ)
    (W : List (List α)) (is : List ℕ) (ML : List (ℕ × WeightsInfo α)) :
    ((perturbEntry obj h W j i).weights = W) ∧
    ((scanEntries eof expected h obj analytical owner j W is).weights = W) ∧
    ((scanWeights eof expected h obj W ML).weights = W) :=
  ⟨perturbEntry_weights obj h W j i,
   scanEntries_weights eof expected h obj analytical owner j W is,
   scanWeights_weights eof expected h obj W ML⟩

/-- C10: the gradient check runs iff the configured execution-mode set is
empty or contains the current mode; when the mode is excluded the call
returns immediately with the model state unchanged. -/
theorem claim10_mode_gate (cfg : CheckGradientsConfig) (machineEps : ℝ)
    (obj : List (List ℝ) → ℝ) (infos : List (WeightsInfo ℝ))
    (initPositions : List ℤ) (mode : ExecutionMode) (st : ModelState) :
    ((do_check_gradients cfg machineEps obj infos initPositions mode st).2.isSome
        = true ↔ (cfg.modes = [] ∨ mode ∈ cfg.modes)) ∧
    (¬ (cfg.modes = [] ∨ mode ∈ cfg.modes) →
      do_check_gradients cfg machineEps obj infos initPositions mode st
        = (st, none)) := by
  by_cases hen : cfg.modes = [] ∨ mode ∈ cfg.modes
  · have hgate : (!cfg.modes.isEmpty && !(cfg.modes.contains mode)) = false := by
      rcases hen with h1 | h2
      · simp [h1]
      · simp [h2]
    constructor
    · unfold do_check_gradients
      rw [hgate]
      simp only [Bool.false_eq_true, if_false]
      split
      · simp [hen]
      · simp [hen]
    · intro hcon
      exact absurd hen hcon
  · push_neg at hen
    have hgate : (!cfg.modes.isEmpty && !(cfg.modes.contains mode)) = true := by
      simp [List.isEmpty_iff, hen.1, hen.2]
    constructor
    · unfold do_check_gradients
      rw [hgate]
      simp [hen.1, hen.2]
    · intro _
      unfold do_check_gradients
      rw [hgate]
      simp

/-- Witness for C10: with modes restricted to training, a call in testing
mode returns the state untouched and no run output. -/
theorem claim10_mode_gate_witness :
    do_check_gradients ⟨[ExecutionMode.training], 1, false, false⟩ 1
      (fun _ => 0) [] [] ExecutionMode.testing
      ⟨[[1]], 5, [7], [3]⟩ = (⟨[[1]], 5, [7], [3]⟩, none) :=
  (claim10_mode_gate ⟨[ExecutionMode.training], 1, false, false⟩ 1
    (fun _ => 0) [] [] ExecutionMode.testing ⟨[[1]], 5, [7], [3]⟩).2
    (by decide)

end LBANN
